import Mathlib

/-!
# Verification of the currency-bot transaction/ledger engine

A shallow embedding of the core of the `my007_currency_bot` repository:
the number/currency normalizer (`app/services/parser.py`), the settlement
calculator (`app/services/math.py`), the batched ledger writer
(`bot.py` / `app/services/operations.py`), the database layer
(`database.py` and `app/db/database.py`) and the message handlers
(`app/handlers/operations.py`).

Modelling conventions:
* Python strings are modelled as lists of Unicode code points (`Str`),
  so that case mapping is plain arithmetic over the code points.
* Python floats are modelled as rationals (`ℚ`); `round(x, 6)` is
  modelled exactly over `ℚ`, with ties to even, following the documented
  behaviour of Python's `round`.
* SQLite state is modelled as an explicit record (`DBState`): an
  operations table, a balances table and a registered-chats table.
  Each method of the source `Database` class opens a connection, runs
  its statements and commits; a method is embedded as a state-passing
  function whose result state is what its COMMIT publishes.  A method
  that never reaches a COMMIT publishes nothing: its result state is its
  input state.
-/

/-- Python strings, as lists of Unicode code points. -/
abbrev Str := List Nat

/-- Convert a Lean string literal to its code-point list. -/
def str (s : String) : Str := s.data.map Char.toNat

/-- Whitespace as stripped by `str.strip()` / matched by `\s`
(space, tab, LF, CR, FF, VT, NBSP U+00A0, narrow NBSP U+202F). -/
def isSpaceCp (c : Nat) : Bool :=
  c = 32 || c = 9 || c = 10 || c = 13 || c = 12 || c = 11 || c = 0xA0 || c = 0x202F

/-- ASCII digit code point. -/
def isDigitCp (c : Nat) : Bool := 48 ≤ c && c ≤ 57

/-- `str.lower()` on the alphabet the bot uses
(ASCII A–Z; Cyrillic А–Я U+0410–U+042F; Ё U+0401). -/
def lowerCp (c : Nat) : Nat :=
  if 65 ≤ c ∧ c ≤ 90 then c + 32
  else if 1040 ≤ c ∧ c ≤ 1071 then c + 32
  else if c = 1025 then 1105
  else c

/-- `str.upper()` on the same alphabet
(ASCII a–z; Cyrillic а–я U+0430–U+044F; ё U+0451). -/
def upperCp (c : Nat) : Nat :=
  if 97 ≤ c ∧ c ≤ 122 then c - 32
  else if 1072 ≤ c ∧ c ≤ 1103 then c - 32
  else if c = 1105 then 1025
  else c

/-- `str.strip()`: drop leading and trailing whitespace. -/
def strStrip (s : Str) : Str :=
  ((s.dropWhile isSpaceCp).reverse.dropWhile isSpaceCp).reverse

/-- `str.lower()` over a whole string. -/
def strLower (s : Str) : Str := s.map lowerCp

/-- `str.upper()` over a whole string. -/
def strUpper (s : Str) : Str := s.map upperCp

/-- `s.split(sep)` for a one-character separator: the (possibly empty)
chunks between occurrences of `sep`. -/
def splitSep (sep : Nat) : Str → List Str
  | [] => [[]]
  | c :: rest =>
    if c = sep then [] :: splitSep sep rest
    else
      match splitSep sep rest with
      | [] => [[c]]
      | g :: gs => (c :: g) :: gs

/-- `s.split()` (no argument): maximal runs of non-whitespace. -/
def pySplitWs (s : Str) : List Str :=
  (s.foldr
    (fun c acc =>
      match acc with
      | [] => if isSpaceCp c then [[]] else [[c]]
      | g :: gs => if isSpaceCp c then [] :: g :: gs else (c :: g) :: gs)
    [[]]).filter (fun g => g ≠ [])

/-- Numeric value of a digit string (most significant digit first). -/
def digitsVal (s : Str) : Nat := s.foldl (fun acc c => 10 * acc + (c - 48)) 0

/-- Model of Python `float(s)` on the fragment the parser feeds it:
an optional single `.` between two digit runs, at least one of which is
nonempty.  Anything else raises `ValueError`, modelled as `none`. -/
def pyFloat (s : Str) : Option ℚ :=
  match splitSep 46 s with
  | [a] =>
    if a ≠ [] ∧ a.all isDigitCp then some (digitsVal a) else none
  | [a, b] =>
    if (a ≠ [] ∨ b ≠ []) ∧ a.all isDigitCp ∧ b.all isDigitCp then
      some ((digitsVal a : ℚ) + (digitsVal b : ℚ) / 10 ^ b.length)
    else none
  | _ => none

/-- Python `round(q)`: nearest integer, ties to even. -/
def pyRound (q : ℚ) : ℤ :=
  let f := ⌊q⌋
  let r := q - f
  if r < 1/2 then f
  else if 1/2 < r then f + 1
  else if 2 ∣ f then f else f + 1

/-- Python `round(q, 6)`. -/
def round6 (q : ℚ) : ℚ := (pyRound (q * 1000000) : ℚ) / 1000000

/-- Index of the last occurrence of `c`, if any. -/
def lastIndexOf (c : Nat) : Str → Option Nat
  | [] => none
  | a :: rest =>
    match lastIndexOf c rest with
    | some i => some (i + 1)
    | none => if a = c then some 0 else none

/-- Python `str.rfind`: index of the last occurrence, `-1` if absent. -/
def rfind (c : Nat) (s : Str) : ℤ :=
  match lastIndexOf c s with
  | some i => i
  | none => -1

/-- Python truthiness of an optional string (`None` and `""` are falsy). -/
def pyTruthy : Option Str → Bool
  | none => false
  | some s => s ≠ []

/-! ## Normalizer — `app/services/parser.py` -/

/-- Association-list lookup (model of a Python dict built from literal
keys: keys are distinct, so insertion order is irrelevant). -/
def lookupStr : List (Str × Str) → Str → Option Str
  | [], _ => none
  | (k, v) :: rest, key => if key = k then some v else lookupStr rest key

/-- The `curr_map` alias table of `normalize_currency`
(`app/services/parser.py` lines 120–130). -/
def curr_map : List (Str × Str) :=
  [ (str "руб", str "RUB"), (str "₽", str "RUB"), (str "рублей", str "RUB"),
    (str "rub", str "RUB"), (str "рубля", str "RUB"), (str "рубли", str "RUB"),
    (str "rubles", str "RUB"),
    (str "сом", str "KGS"), (str "сомов", str "KGS"), (str "kgs", str "KGS"),
    (str "usd", str "USD"), (str "долл", str "USD"), (str "$", str "USD"),
    (str "дол", str "USD"),
    (str "доллар", str "USD"), (str "долларов", str "USD"), (str "долларах", str "USD"),
    (str "eur", str "EUR"), (str "€", str "EUR"), (str "ев", str "EUR"),
    (str "евро", str "EUR"), (str "euro", str "EUR"),
    (str "kzt", str "KZT"), (str "тенге", str "KZT"),
    (str "cny", str "CNY"), (str "yuan", str "CNY"), (str "¥", str "CNY"),
    (str "юан", str "CNY"), (str "юань", str "CNY"), (str "юаней", str "CNY"),
    (str "юани", str "CNY"), (str "юаня", str "CNY"),
    (str "aed", str "AED"), (str "дирхам", str "AED"), (str "дирхамов", str "AED"),
    (str "дир", str "AED"), (str "dirham", str "AED"), (str "dirhams", str "AED") ]

/-- The cleaning stage of `normalize_currency` (`app/services/parser.py`
lines 114–115): `c = curr.strip().lower()` then
`c = c.replace(".", "").replace(",", "").strip()`. -/
def cleanCurr (curr : Str) : Str :=
  strStrip ((strLower (strStrip curr)).filter (fun ch => ¬(ch = 46 ∨ ch = 44)))

/-- `normalize_currency` (`app/services/parser.py` lines 109–132):
strip, lower-case, delete `.` and `,`, strip again; then the USDT
aliases, then the alias table, and unknown tokens pass through
upper-cased. -/
def normalize_currency (curr : Str) : Str :=
  if curr = [] then []
  else
    let c := cleanCurr curr
    if c = str "usdt" ∨ c = str "тез" ∨ c = str "тезер" then str "USDT"
    else
      match lookupStr curr_map c with
      | some v => v
      | none => strUpper c

/-- The regex `\d{1,3}(sep\d{3}){minGroups,}` as a full match, via
splitting on the separator: a 1–3 digit head followed by at least
`minGroups` groups of exactly 3 digits. -/
def matchGroupsRe (sep minGroups : Nat) (s : Str) : Bool :=
  match splitSep sep s with
  | [] => false
  | h :: gs =>
    (h != ([] : Str)) && decide (h.length ≤ 3) && h.all isDigitCp &&
      decide (minGroups ≤ gs.length) &&
      gs.all (fun g => (g.length == 3) && g.all isDigitCp)

/-- `parse_human_number` (`app/services/parser.py` lines 134–171):
strip, NBSP→space, delete all whitespace; when both `.` and `,` occur
the later one is the decimal mark; a lone `.` is thousands-grouping only
for `\d{1,3}(\.\d{3}){2,}`; a lone `,` is thousands-grouping for
`\d{1,3}(,\d{3})+`, otherwise a decimal mark. -/
def parse_human_number (s : Str) : Option ℚ :=
  let t0 := (strStrip s).map (fun c => if c = 0xA0 then 32 else c)
  let t := t0.filter (fun c => ¬ isSpaceCp c)
  let hasDot := 46 ∈ t
  let hasComma := 44 ∈ t
  if hasDot ∧ hasComma then
    if rfind 46 t < rfind 44 t then
      pyFloat ((t.filter (fun c => c ≠ 46)).map (fun c => if c = 44 then 46 else c))
    else
      pyFloat (t.filter (fun c => c ≠ 44))
  else if hasDot then
    if matchGroupsRe 46 2 t then pyFloat (t.filter (fun c => c ≠ 46)) else pyFloat t
  else if hasComma then
    if matchGroupsRe 44 1 t then pyFloat (t.filter (fun c => c ≠ 44))
    else pyFloat (t.map (fun c => if c = 44 then 46 else c))
  else pyFloat t

/-- Spec-side formulation of "the digits after the separator form
complete 3-digit groups, repeated at least `minGroups` times", as the
claim states it: the string decomposes into a 1–3 digit head and at
least `minGroups` trailing separator-plus-3-digit groups. -/
def SpecGrouped (sep minGroups : Nat) (s : Str) : Prop :=
  ∃ (h : Str) (gs : List Str), s = h ++ (gs.map (fun g => sep :: g)).flatten ∧
    h ≠ [] ∧ h.length ≤ 3 ∧ (∀ c ∈ h, isDigitCp c) ∧
    minGroups ≤ gs.length ∧ (∀ g ∈ gs, g.length = 3 ∧ ∀ c ∈ g, isDigitCp c)

/-! ## Settlement calculator — `app/services/math.py` -/

/-- The closed "weak" currency set of `compute_conversion_to_amount`. -/
def weakCurrencies : List Str := [str "RUB", str "KGS", str "KZT", str "CNY"]

/-- The closed "strong" currency set of `compute_conversion_to_amount`. -/
def strongCurrencies : List Str := [str "USD", str "USDT", str "EUR", str "AED"]

/-- `compute_conversion_to_amount` (`app/services/math.py` lines 5–27;
the identical copy is `bot.py` lines 343–360).  Raising
`ValueError("Курс должен быть > 0")` is modelled as `none`. -/
def compute_conversion_to_amount (amount rate : ℚ) (from_curr to_curr : Str) : Option ℚ :=
  if rate ≤ 0 then none
  else
    let from_weak := from_curr ∈ weakCurrencies
    let from_strong := from_curr ∈ strongCurrencies
    let to_weak := to_curr ∈ weakCurrencies
    let to_strong := to_curr ∈ strongCurrencies
    if from_strong ∧ to_weak then some (amount * rate)
    else if from_weak ∧ to_strong then some (amount / rate)
    else if from_weak ∧ to_weak then some (amount * rate)
    else if from_strong ∧ to_strong then some (amount * rate)
    else some (amount * rate)

/-! ## Database layer — `database.py` and `app/db/database.py` -/

/-- A row of the `operations` table. -/
structure OpRow where
  id : Nat
  chatId : ℤ
  opType : Str
  currency : Str
  amount : ℚ
  description : Str
  timestamp : ℤ
deriving DecidableEq

/-- A row of the `balances` table. -/
structure BalRow where
  chatId : ℤ
  currency : Str
  balance : ℚ
deriving DecidableEq

/-- The persistent SQLite state: registered chats (id, name — `[]` for a
NULL name), operations, materialized balances, and the next
AUTOINCREMENT id. -/
structure DBState where
  chats : List (ℤ × Str)
  ops : List OpRow
  balances : List BalRow
  nextId : Nat
deriving DecidableEq

/-- The empty database. -/
def DBState.empty : DBState := ⟨[], [], [], 1⟩

/-- `CURRENCIES` (`app/core/config.py` line 10). -/
def CURRENCIES : List Str :=
  [str "USD", str "EUR", str "RUB", str "CNY", str "AED", str "KGS", str "USDT", str "KZT"]

namespace Database

/-- `INSERT OR IGNORE INTO balances ... VALUES (chat, cur, 0.0)` for
every configured currency. -/
def initBalances (chatId : ℤ) (balances : List BalRow) : List BalRow :=
  CURRENCIES.foldl
    (fun bs cur =>
      if bs.any (fun b => b.chatId == chatId && b.currency == cur) then bs
      else bs ++ [(⟨chatId, cur, 0⟩ : BalRow)])
    balances

/-- The "make sure the chat is registered" preamble of `add_operation`
(`database.py` lines 226–237): insert the chat row (with NULL name) and
zero balances if absent. -/
def ensureChat (db : DBState) (chatId : ℤ) : DBState :=
  if db.chats.any (fun e => e.1 == chatId) then db
  else { db with
    chats := db.chats ++ [(chatId, [])],
    balances := initBalances chatId db.balances }

/-- The balance upsert of `add_operation` (`database.py` lines 248–254):
`INSERT ... ON CONFLICT(chat_id, currency) DO UPDATE SET balance = balance + amount`. -/
def upsertBalance (balances : List BalRow) (chatId : ℤ) (cur : Str) (delta : ℚ) : List BalRow :=
  if balances.any (fun b => b.chatId == chatId && b.currency == cur) then
    balances.map (fun b =>
      if b.chatId == chatId && b.currency == cur then
        { b with balance := b.balance + delta }
      else b)
  else balances ++ [(⟨chatId, cur, delta⟩ : BalRow)]

/-- `Database.add_operation` (`database.py` lines 202–264): one
transaction that registers the chat if needed, INSERTs the operation
row, increments the matching balance row, COMMITs, and returns the new
row id.  `now` is `CURRENT_TIMESTAMP`. -/
def add_operation (db : DBState) (now : ℤ) (chat_id : ℤ) (operation_type : Str)
    (currency : Str) (amount : ℚ) (description : Str) : DBState × Nat :=
  let db1 := ensureChat db chat_id
  let opId := db1.nextId
  let db2 := { db1 with
    ops := db1.ops ++
      [(⟨opId, chat_id, operation_type, currency, amount, description, now⟩ : OpRow)],
    nextId := opId + 1 }
  let db3 := { db2 with balances := upsertBalance db2.balances chat_id currency amount }
  (db3, opId)

/-- `Database.get_balance` (`database.py`): `SELECT balance FROM
balances WHERE chat_id = ? AND currency = ?`, `0.0` when absent. -/
def get_balance (db : DBState) (chat_id : ℤ) (currency : Str) : ℚ :=
  match db.balances.find? (fun b => b.chatId == chat_id && b.currency == currency) with
  | some b => b.balance
  | none => 0

/-- The true balance: `SELECT COALESCE(SUM(amount), 0) FROM operations
WHERE chat_id = ? AND currency = ?`. -/
def sumOps (db : DBState) (chat_id : ℤ) (currency : Str) : ℚ :=
  ((db.ops.filter (fun o => o.chatId == chat_id && o.currency == currency)).map
    (fun o => o.amount)).sum

/-- `Database._norm` (`app/db/database.py` lines 17–21): strip, lower,
collapse internal whitespace to single spaces. -/
def norm (s : Str) : Str :=
  List.intercalate [32] (pySplitWs (strLower (strStrip s)))

/-- The per-chat score of `get_chat_id_by_name` (`app/db/database.py`
lines 613–621): substring containment scores `100 + len(wanted)`,
otherwise 10 per distinct shared word. -/
def chatScore (wanted n : Str) : Nat :=
  if wanted <:+: n then 100 + wanted.length
  else
    let common :=
      ((pySplitWs wanted).dedup.filter (fun w => w ∈ pySplitWs n)).length
    if common ≠ 0 then 10 * common else 0

/-- The scan loop of `get_chat_id_by_name`: first exact match returns
immediately; otherwise the first best-scoring chat wins and is accepted
only with score ≥ 20. -/
def findChat (wanted : Str) : List (ℤ × Str) → Option ℤ → Nat → Option ℤ
  | [], best, bestScore => if 20 ≤ bestScore then best else none
  | (cid, nm) :: rest, best, bestScore =>
    let n := norm nm
    if n = wanted then some cid
    else
      let score := chatScore wanted n
      if bestScore < score then findChat wanted rest (some cid) score
      else findChat wanted rest best bestScore

/-- `Database.get_chat_id_by_name` (`app/db/database.py` lines 597–627). -/
def get_chat_id_by_name (db : DBState) (name : Str) : Option ℤ :=
  let wanted := norm name
  if wanted = [] then none
  else findChat wanted db.chats none 0

end Database

namespace AppDatabase

/-- `Database.add_operation` of `app/db/database.py` (lines 148–187).
The method registers the chat and INSERTs the operation row inside an
open transaction — and then its body ends: `is_duplicate_operation` was
pasted into the class at line 189, so the balance update, the COMMIT and
the `return operation_id` (lines 212–231) are unreachable statements
stranded after that method's `return`.  With no COMMIT the transaction
is discarded when the (leaked) connection goes away, so nothing is
published and the caller receives Python `None` instead of the
annotated `int`. -/
def add_operation (db : DBState) (now : ℤ) (chat_id : ℤ) (operation_type : Str)
    (currency : Str) (amount : ℚ) (description : Str) : DBState × Option Nat :=
  let uncommitted :=
    let db1 := Database.ensureChat db chat_id
    { db1 with
      ops := db1.ops ++
        [(⟨db1.nextId, chat_id, operation_type, currency, amount, description, now⟩ : OpRow)],
      nextId := db1.nextId + 1 }
  -- the function returns here: `uncommitted` is never committed
  let _ := uncommitted
  (db, none)

/-- `Database.is_duplicate_operation` (`app/db/database.py` lines
189–210): does an operation with the same (chat, amount, currency,
description) exist with `timestamp >= datetime('now', '-N hours')`? -/
def is_duplicate_operation (db : DBState) (now : ℤ) (chat_id : ℤ) (amount : ℚ)
    (currency : Str) (description : Str) (time_window_hours : ℤ := 24) : Bool :=
  db.ops.any (fun o =>
    o.chatId == chat_id && o.amount == amount && o.currency == currency &&
    o.description == description && decide (now - time_window_hours * 3600 ≤ o.timestamp))

/-- The issues reported by `verify_financial_integrity`, keeping the
data interpolated into the report strings. -/
inductive AuditIssue where
  | positiveExpense (id : Nat) (opType : Str) (amount : ℚ) (currency : Str) (chatId : ℤ)
  | negativeIncome (id : Nat) (opType : Str) (amount : ℚ) (currency : Str) (chatId : ℤ)
  | balanceDrift (chatId : ℤ) (currency : Str) (real stored : ℚ)
deriving DecidableEq

/-- `expense_types` (`app/db/database.py` line 827). -/
def expense_types : List Str :=
  [str "Выдача наличных", str "Оплата ПП", str "Комиссия", str "Комиссия 1%"]

/-- `income_types` (`app/db/database.py` line 839). -/
def income_types : List Str := [str "Поступление", str "Взнос наличными"]

/-- The stored balance as the audit reads it: the Python dict built from
`SELECT chat_id, currency, balance FROM balances` (later rows win),
`0.0` when the key is absent. -/
def storedBalance (db : DBState) (chat : ℤ) (cur : Str) : ℚ :=
  match db.balances.reverse.find? (fun b => b.chatId == chat && b.currency == cur) with
  | some b => b.balance
  | none => 0

/-- `Database.verify_financial_integrity` (`app/db/database.py` lines
813–872).  Read-only: the method runs only SELECTs and never writes, so
it is a pure function of the state.  Sign check: expense kinds with
positive amount, income kinds with negative amount.  Drift check: every
(chat, currency) seen in operations or balances with
`abs(real - stored) > 0.009`. -/
def verify_financial_integrity (db : DBState) : List AuditIssue :=
  let positive_expenses :=
    (db.ops.filter (fun o => expense_types.contains o.opType && decide (0 < o.amount))).map
      (fun o => AuditIssue.positiveExpense o.id o.opType o.amount o.currency o.chatId)
  let negative_incomes :=
    (db.ops.filter (fun o => income_types.contains o.opType && decide (o.amount < 0))).map
      (fun o => AuditIssue.negativeIncome o.id o.opType o.amount o.currency o.chatId)
  let all_keys :=
    ((db.ops.map (fun o => (o.chatId, o.currency))) ++
      (db.balances.map (fun b => (b.chatId, b.currency)))).dedup
  let drifts :=
    (all_keys.filter (fun k =>
      decide ((9 : ℚ)/1000 < |Database.sumOps db k.1 k.2 - storedBalance db k.1 k.2|))).map
      (fun k => AuditIssue.balanceDrift k.1 k.2 (Database.sumOps db k.1 k.2)
        (storedBalance db k.1 k.2))
  positive_expenses ++ negative_incomes ++ drifts

end AppDatabase

/-! ## Batched ledger writer — `bot.py` lines 185–221 /
`app/services/operations.py` lines 14–64 -/

/-- An entry of the in-memory per-scope pending queue. -/
structure QueuedOp where
  opType : Str
  currency : Str
  amount : ℚ
  description : Str
deriving DecidableEq

/-- The pending-queue map `operation_queue` (a `defaultdict(list)`), in
insertion order. -/
abbrev OpQueue := List (ℤ × List QueuedOp)

/-- `queue_operation`: append the operation to the chat's pending list. -/
def queue_operation (q : OpQueue) (chat : ℤ) (op : QueuedOp) : OpQueue :=
  if q.any (fun e => e.1 == chat) then
    q.map (fun e => if e.1 == chat then (e.1, e.2 ++ [op]) else e)
  else q ++ [(chat, [op])]

/-- One `db.add_operation` call made by the flush loop. -/
def applyOp (now : ℤ) (chat : ℤ) (db : DBState) (op : QueuedOp) : DBState :=
  (Database.add_operation db now chat op.opType op.currency op.amount op.description).1

/-- Committing a whole prefix of a batch. -/
def applyOps (now : ℤ) (chat : ℤ) (db : DBState) (ops : List QueuedOp) : DBState :=
  ops.foldl (applyOp now chat) db

/-- The inner loop of `process_operation_batch` (`bot.py` lines
196–203) for one scope: each entry is committed by its own
`db.add_operation` call (its own transaction).  `fails i` says whether
the i-th call raises; the first raise aborts the loop, keeping
everything already committed. -/
def flushScope (fails : Nat → Bool) (now : ℤ) (chat : ℤ) (db : DBState) :
    List QueuedOp → DBState × Bool
  | [] => (db, true)
  | op :: rest =>
    if fails 0 then (db, false)
    else flushScope (fun i => fails (i + 1)) now chat (applyOp now chat db op) rest

/-- One scope of one flush cycle (`bot.py` lines 194–209): on success
the scope's key is popped from the queue; on an exception the loop only
logs, leaving the scope's entries in the queue. -/
def process_scope (fails : Nat → Bool) (now : ℤ) (db : DBState) (q : OpQueue)
    (chat : ℤ) (ops : List QueuedOp) : DBState × OpQueue :=
  let r := flushScope fails now chat db ops
  if r.2 then (r.1, q.filter (fun e => e.1 != chat))
  else (r.1, q)

/-- One full flush cycle of `process_operation_batch`: snapshot the
queue map and process every scope of the snapshot. -/
def process_operation_batch (fails : ℤ → Nat → Bool) (now : ℤ) (db : DBState)
    (q : OpQueue) : DBState × OpQueue :=
  q.foldl (fun acc e => process_scope (fails e.1) now acc.1 acc.2 e.1 e.2) (db, q)

/-! ## Handlers — `app/handlers/operations.py`, `app/services/operations.py` -/

/-- The classified fields of a conversion line (`parse_manual_operation_line`'s
`Конвертация` result: its `фикс` rule sets `description = "Фикс"`). -/
structure ConvIntent where
  amount : ℚ
  rate : ℚ
  currency : Str
  to_currency : Str
  description : Str
deriving DecidableEq

/-- A classified manual operation (`parse_manual_operation_line` result). -/
structure ManualOp where
  mtype : Str
  amount : ℚ
  currency : Str
  rate : Option ℚ
  to_currency : Option Str
  description : Str
deriving DecidableEq

/-- `"❗ Курс должен быть больше 0"` (`app/handlers/operations.py` line 233). -/
def rateErrorMsg : Str := str "❗ Курс должен быть больше 0"

/-- The `ValueError` text of `resolve_target_chat_id` for a private chat
without a group tag, with its corrective example
(`app/services/operations.py` lines 78–81). -/
def scopeHintMsg : Str :=
  str "В личном чате нужно указать группу в квадратных скобках.\nПример:\n[УЗ] поступили 5000 usdt"

/-- `ValueError(f"Группа '{g}' не найдена")` (`app/services/operations.py` line 85). -/
def groupNotFoundMsg (g : Str) : Str := str "Группа '" ++ g ++ str "' не найдена"

/-- The reply of the auto-income path in a private chat without a group
tag, with its corrective example (`app/handlers/operations.py` lines 83–86). -/
def privateIncomeHintMsg : Str :=
  str "❗ В личном чате укажи группу ПЕРЕД сообщением.\nПример:\n[УЗ] поступили 5000 usdt"

/-- `f"❌ Группа '{g}' не найдена"` (`app/handlers/operations.py` line 90). -/
def incomeGroupNotFoundMsg (g : Str) : Str := str "❌ Группа '" ++ g ++ str "' не найдена"

/-- `resolve_target_chat_id` (`app/services/operations.py` lines 67–91):
group chats write to themselves; a private chat needs a truthy group tag
that resolves through `get_chat_id_by_name`.  `raise ValueError(msg)` is
modelled as `.error msg`. -/
def resolve_target_chat_id (db : DBState) (chatId : ℤ) (is_private : Bool)
    (group_from_manual : Option Str) : Except Str ℤ :=
  if is_private then
    if ¬ pyTruthy group_from_manual then Except.error scopeHintMsg
    else
      match Database.get_chat_id_by_name db (group_from_manual.getD []) with
      | some cid => Except.ok cid
      | none => Except.error (groupNotFoundMsg (group_from_manual.getD []))
  else Except.ok chatId

/-- The `is_internal` test of `handle_text` (`app/handlers/operations.py`
lines 158–162). -/
def isInternalReportOp (m : ManualOp) : Bool :=
  m.mtype == str "Manual Buy FX" ||
    (m.mtype == str "Выдача наличных" &&
      m.description == str "Выдача наличных (internal_report)")

/-- The FX description `f"FX: Buy {currency} rate {rate}"`; the numeric
rate suffix of the f-string is not modelled (no claim concerns it). -/
def fxBuyDesc (cur : Str) : Str := str "FX: Buy " ++ cur

/-- The `Конвертация` branch of `handle_text`
(`app/handlers/operations.py` lines 228–255): reject a non-positive
rate with an error reply before anything is enqueued; the `Фикс` path
enqueues `+amount` in the source currency and `-round(amount*rate, 6)`
in the destination; the generic path enqueues `-amount` in the source
currency and the settlement-calculator amount in the destination.
Success replies are not sent on this branch (the source only replies on
error here). -/
def handle_conversion (target : ℤ) (m : ConvIntent) : List (ℤ × QueuedOp) × Option Str :=
  if m.rate ≤ 0 then ([], some rateErrorMsg)
  else if m.description = str "Фикс" then
    ([(target, ⟨str "Конвертация", m.currency, m.amount, m.description⟩),
      (target, ⟨str "Конвертация", m.to_currency, -(round6 (m.amount * m.rate)), m.description⟩)],
     none)
  else
    match compute_conversion_to_amount m.amount m.rate m.currency m.to_currency with
    | some to_amount =>
      ([(target, ⟨str "Конвертация", m.currency, -m.amount, m.description⟩),
        (target, ⟨str "Конвертация", m.to_currency, to_amount, m.description⟩)], none)
    | none => ([], none)  -- unreachable: `rate > 0` was established above

/-- The dispatch on `manual["type"]` of `handle_text`
(`app/handlers/operations.py` lines 170–269).  Success replies are
modelled as opaque markers (their f-string text interpolates amounts). -/
def dispatch_manual (target : ℤ) (m : ManualOp) : List (ℤ × QueuedOp) × Option Str :=
  if m.mtype = str "Manual Buy FX" then
    let rate := m.rate.getD 0
    let rub_amount := m.amount * rate
    ([(target, ⟨str "Internal Exchange", m.currency, m.amount, fxBuyDesc m.currency⟩),
      (target, ⟨str "Internal Exchange", str "RUB", -rub_amount, fxBuyDesc m.currency⟩)],
     some (str "OK Buy FX"))
  else if m.mtype = str "Выдача наличных" ∧
      m.description = str "Выдача наличных (internal_report)" then
    ([(target, ⟨m.mtype, m.currency, -m.amount, m.description⟩)], some (str "OK Cash Out"))
  else if m.mtype = str "Конвертация" then
    handle_conversion target
      ⟨m.amount, m.rate.getD 0, m.currency, m.to_currency.getD [], m.description⟩
  else
    let sign : ℚ :=
      if m.mtype = str "Выдача наличных" ∨ m.mtype = str "Оплата ПП" ∨
          m.mtype = str "Комиссия" then -1 else 1
    ([(target, ⟨m.mtype, m.currency, sign * m.amount, m.description⟩)], none)

/-- The manual-operation part of `handle_text`
(`app/handlers/operations.py` lines 142–269): staff only; resolve the
target scope and dispatch; a `ValueError` from the resolver is replied
verbatim and nothing is enqueued — except the `[internal_report]`
special case, which falls back to the current (private) chat. -/
def handle_manual (db : DBState) (staff is_private : Bool) (group_name : Option Str)
    (chatId : ℤ) (manual : Option ManualOp) : List (ℤ × QueuedOp) × Option Str :=
  if ¬ staff then ([], none)
  else
    match manual with
    | none => ([], none)
    | some m =>
      match resolve_target_chat_id db chatId is_private group_name with
      | Except.ok target => dispatch_manual target m
      | Except.error e =>
        if isInternalReportOp m ∧ is_private ∧ ¬ pyTruthy group_name then
          dispatch_manual chatId m
        else ([], some e)

/-- A parsed bank-income notification (`parse_income_notification` result). -/
structure IncomeParsed where
  amount : ℚ
  currency : Str
  description : Str
deriving DecidableEq

/-- The auto-income part of `handle_text` (`app/handlers/operations.py`
lines 62–117): the reporting chat always books to itself; a private chat
needs a resolvable group tag (else a hint reply and nothing enqueued);
group chats book to themselves.  NOTE (see C5): the source's enqueue
call passes a `timestamp=` keyword that `queue_operation` does not
accept, a `TypeError` at runtime; the embedding models the enqueue the
handler intends.  No duplicate check of any kind is performed on this
path. -/
def handle_auto_income (db : DBState) (report_chat_id chatId : ℤ) (is_private : Bool)
    (group_name : Option Str) (income : Option IncomeParsed) :
    List (ℤ × QueuedOp) × Option Str :=
  match income with
  | none => ([], none)
  | some inc =>
    if chatId = report_chat_id then
      ([(report_chat_id, ⟨str "Поступление", inc.currency, inc.amount, inc.description⟩)], none)
    else if is_private then
      if ¬ pyTruthy group_name then ([], some privateIncomeHintMsg)
      else
        match Database.get_chat_id_by_name db (group_name.getD []) with
        | none => ([], some (incomeGroupNotFoundMsg (group_name.getD [])))
        | some t =>
          ([(t, ⟨str "Поступление", inc.currency, inc.amount, inc.description⟩)], none)
    else
      ([(chatId, ⟨str "Поступление", inc.currency, inc.amount, inc.description⟩)], none)

/-! ## Theorems -/

/-! ### Shared helper lemmas -/

/-- The weak and strong currency sets are disjoint. -/
theorem weak_strong_disjoint (s : Str) (hw : s ∈ weakCurrencies)
    (hs : s ∈ strongCurrencies) : False := by
  simp only [weakCurrencies, List.mem_cons, List.not_mem_nil, or_false] at hw
  rcases hw with h | h | h | h <;> subst h <;> revert hs <;> decide

/-- `round(·)` of an integer is that integer. -/
theorem pyRound_intCast (n : ℤ) : pyRound (n : ℚ) = n := by
  unfold pyRound
  rw [Int.floor_intCast]
  norm_num

/-- `round(q, 6)` is exact whenever `q` has at most 6 decimal places. -/
theorem round6_exact (q : ℚ) (n : ℤ) (h : q * 1000000 = (n : ℚ)) :
    round6 q = q := by
  unfold round6
  rw [h, pyRound_intCast]
  field_simp at h ⊢
  linarith

/-- `⌊3/10⌋ = 0` over `ℚ`. -/
theorem floor_three_tenths : ⌊(3/10 : ℚ)⌋ = 0 := by
  rw [Int.floor_eq_iff]
  norm_num

/-- `round(3e-7, 6) = 0`. -/
theorem round6_tiny : round6 (3/10000000 : ℚ) = 0 := by
  unfold round6 pyRound
  rw [show (3 / 10000000 * 1000000 : ℚ) = 3/10 by norm_num, floor_three_tenths]
  norm_num

/-! ### C2 — generic conversion settlement directions -/

/-- C2: for every generic conversion with rate `r > 0`, the destination
amount is `a / r` exactly when the source currency is weak and the
destination strong (weak = RUB, KGS, KZT, CNY; strong = USD, USDT, EUR,
AED), and `a * r` in every other combination — strong→weak, weak→weak,
strong→strong, and any combination involving an unclassified code. -/
theorem compute_conversion_direction (a r : ℚ) (f t : Str) (hr : 0 < r) :
    compute_conversion_to_amount a r f t =
      some (if f ∈ weakCurrencies ∧ t ∈ strongCurrencies then a / r else a * r) := by
  unfold compute_conversion_to_amount
  have hnr : ¬ r ≤ 0 := not_le.mpr hr
  by_cases hfw : f ∈ weakCurrencies <;> by_cases hfs : f ∈ strongCurrencies <;>
    by_cases htw : t ∈ weakCurrencies <;> by_cases hts : t ∈ strongCurrencies <;>
      first
        | exact absurd (weak_strong_disjoint f hfw hfs) (by simp)
        | exact absurd (weak_strong_disjoint t htw hts) (by simp)
        | simp [hnr, hfw, hfs, htw, hts]

/-- Witness for C2 at the spec's own example: amount 1000, rate 89.5,
USD→RUB multiplies to 89500, and RUB→USD at amount 89500 divides back
to 1000. -/
theorem compute_conversion_direction_witness :
    (0 : ℚ) < 179/2 ∧
    compute_conversion_to_amount 1000 (179/2) (str "USD") (str "RUB") = some 89500 ∧
    compute_conversion_to_amount 89500 (179/2) (str "RUB") (str "USD") = some 1000 := by
  refine ⟨by norm_num, ?_, ?_⟩
  · rw [compute_conversion_direction 1000 (179/2) (str "USD") (str "RUB") (by norm_num)]
    have h : ¬(str "USD" ∈ weakCurrencies ∧ str "RUB" ∈ strongCurrencies) := by decide
    simp only [h, if_false]
    norm_num
  · rw [compute_conversion_direction 89500 (179/2) (str "RUB") (str "USD") (by norm_num)]
    have h : str "RUB" ∈ weakCurrencies ∧ str "USD" ∈ strongCurrencies := by decide
    simp only [h, if_true]
    norm_num

/-! ### C7 — non-positive conversion rates are rejected -/

/-- C7: a conversion intent (fix or generic) whose rate is zero or
negative is rejected with the rate error reply before anything is
enqueued: the handler returns no queued operations, so folding its
output into any pending queue leaves the queue — and hence the ledger
and balances committed from it — unchanged. -/
theorem conversion_nonpositive_rate_rejected (target : ℤ) (m : ConvIntent)
    (h : m.rate ≤ 0) :
    handle_conversion target m = ([], some rateErrorMsg) ∧
    ∀ q : OpQueue,
      ((handle_conversion target m).1).foldl (fun q' e => queue_operation q' e.1 e.2) q = q := by
  have hc : handle_conversion target m = ([], some rateErrorMsg) := by
    unfold handle_conversion
    simp [h]
  exact ⟨hc, fun q => by rw [hc]; rfl⟩

/-- Witness for C7: a fix conversion with rate 0 is rejected and leaves
a nonempty queue untouched. -/
theorem conversion_nonpositive_rate_rejected_witness :
    ((⟨140000, 0, str "CNY", str "RUB", str "Фикс"⟩ : ConvIntent).rate ≤ 0) ∧
    handle_conversion 7 ⟨140000, 0, str "CNY", str "RUB", str "Фикс"⟩ =
      ([], some rateErrorMsg) := by
  refine ⟨by norm_num, ?_⟩
  exact (conversion_nonpositive_rate_rejected 7
    ⟨140000, 0, str "CNY", str "RUB", str "Фикс"⟩ (by norm_num)).1

/-! ### C3 — fix conversion legs -/

/-- Counterexample to C3 as stated: the destination leg of a fix
conversion is `-round(a*r, 6)`, not `-(a*r)`.  For the fix intent with
amount `1e-7`, rate 3, CNY→RUB the source creates the legs
`(+1e-7 CNY, 0 RUB)`: the destination leg is `0`, not `-(3e-7)`. -/
theorem fix_conversion_counterexample :
    handle_conversion 1 ⟨1/10000000, 3, str "CNY", str "RUB", str "Фикс"⟩ =
      ([(1, ⟨str "Конвертация", str "CNY", 1/10000000, str "Фикс"⟩),
        (1, ⟨str "Конвертация", str "RUB", 0, str "Фикс"⟩)], none) ∧
    (0 : ℚ) ≠ -((1/10000000) * 3) := by
  constructor
  · unfold handle_conversion
    have h3 : ¬ (3 : ℚ) ≤ 0 := by norm_num
    simp only [h3, if_false, if_true, if_pos rfl]
    have : round6 ((1 : ℚ)/10000000 * 3) = 0 := by
      rw [show ((1 : ℚ)/10000000 * 3) = 3/10000000 by ring]
      exact round6_tiny
    rw [this]
    norm_num
  · norm_num

/-- C3 (amended): for every fix conversion intent with rate `r > 0` the
handler enqueues exactly two linked legs — `+a` in the source currency
and `-round(a*r, 6)` in the destination currency — with no error reply;
and whenever `a*r` has at most 6 decimal places (in particular in every
example of the spec) the destination amount equals `a*r` exactly. -/
theorem fix_conversion_legs (target : ℤ) (m : ConvIntent) (hr : 0 < m.rate)
    (hd : m.description = str "Фикс") :
    handle_conversion target m =
      ([(target, ⟨str "Конвертация", m.currency, m.amount, m.description⟩),
        (target, ⟨str "Конвертация", m.to_currency, -(round6 (m.amount * m.rate)),
          m.description⟩)], none) ∧
    ∀ n : ℤ, m.amount * m.rate * 1000000 = (n : ℚ) →
      round6 (m.amount * m.rate) = m.amount * m.rate := by
  constructor
  · unfold handle_conversion
    have hnr : ¬ m.rate ≤ 0 := not_le.mpr hr
    simp [hnr, hd]
  · intro n hn
    exact round6_exact _ n hn

/-- Witness for C3 at the spec's example `фикс 140000 cny 11.4 rub`:
legs `+140000 CNY` and `-1596000 RUB`. -/
theorem fix_conversion_legs_witness :
    (0 : ℚ) < 57/5 ∧
    handle_conversion 1 ⟨140000, 57/5, str "CNY", str "RUB", str "Фикс"⟩ =
      ([(1, ⟨str "Конвертация", str "CNY", 140000, str "Фикс"⟩),
        (1, ⟨str "Конвертация", str "RUB", -1596000, str "Фикс"⟩)], none) := by
  refine ⟨by norm_num, ?_⟩
  have h := fix_conversion_legs 1 ⟨140000, 57/5, str "CNY", str "RUB", str "Фикс"⟩
    (by norm_num) rfl
  rw [h.1]
  have hexact := h.2 1596000000000 (by norm_num)
  rw [hexact]
  norm_num

/-! ### C6 — flushing a scope's batch -/

/-- C6 (amended): committing a scope's pending batch is per-entry, not
all-or-nothing: each entry goes through its own `add_operation`
transaction, so the committed entries always form a prefix of the
batch — on a mid-batch persistence failure the already-committed prefix
stays applied.  On failure the scope's entries are not dropped either:
`process_scope` leaves the queue untouched, so the whole batch is
retried on the next cycle. -/
theorem flush_prefix_commit (fails : Nat → Bool) (now chat : ℤ) (db : DBState)
    (ops : List QueuedOp) :
    ∃ k, k ≤ ops.length ∧
      (flushScope fails now chat db ops).1 = applyOps now chat db (ops.take k) ∧
      (∀ j, j < k → fails j = false) ∧
      ((flushScope fails now chat db ops).2 = true → k = ops.length) ∧
      ((flushScope fails now chat db ops).2 = false → k < ops.length ∧ fails k = true) ∧
      ∀ q : OpQueue, (flushScope fails now chat db ops).2 = false →
        process_scope fails now db q chat ops = ((flushScope fails now chat db ops).1, q) := by
  induction ops generalizing fails db with
  | nil =>
    refine ⟨0, by simp, by simp [flushScope, applyOps], by omega, by simp, ?_, ?_⟩
    · intro hfalse
      simp [flushScope] at hfalse
    · intro q hfalse
      simp [flushScope] at hfalse
  | cons op rest ih =>
    cases h0 : fails 0 with
    | true =>
      refine ⟨0, by simp, ?_, by omega, ?_, ?_, ?_⟩
      · simp [flushScope, h0, applyOps]
      · intro ht
        simp [flushScope, h0] at ht
      · intro _
        exact ⟨by simp, h0⟩
      · intro q _
        simp [process_scope, flushScope, h0]
    | false =>
      obtain ⟨k, hk, h1, h2, h3, h4, _⟩ :=
        ih (fun i => fails (i + 1)) (applyOp now chat db op)
      have hstep : flushScope fails now chat db (op :: rest) =
          flushScope (fun i => fails (i + 1)) now chat (applyOp now chat db op) rest := by
        simp [flushScope, h0]
      refine ⟨k + 1, by simpa using Nat.succ_le_succ hk, ?_, ?_, ?_, ?_, ?_⟩
      · rw [hstep, List.take_succ_cons]
        exact h1
      · intro j hj
        cases j with
        | zero => exact h0
        | succ j' => exact h2 j' (by omega)
      · intro ht
        rw [hstep] at ht
        simp [h3 ht]
      · intro hf
        rw [hstep] at hf
        obtain ⟨hlt, hfk⟩ := h4 hf
        exact ⟨by simpa using Nat.succ_lt_succ hlt, hfk⟩
      · intro q hf
        rw [hstep] at hf
        simp [process_scope, hstep, hf]

/-- Counterexample to C6 as stated: a batch of two entries for scope 1
whose second `add_operation` call fails is applied *partially* (exactly
one ledger entry is committed, not zero), and the scope's entries are
not removed from the queue (they will be retried by the next cycle, not
dropped). -/
theorem flush_allornothing_counterexample :
    (process_operation_batch (fun _ i => decide (i = 1)) 0 DBState.empty
        [(1, [⟨str "Поступление", str "USD", 100, str "x"⟩,
              ⟨str "Поступление", str "USD", 50, str "y"⟩])]).1.ops.length = 1 ∧
    (process_operation_batch (fun _ i => decide (i = 1)) 0 DBState.empty
        [(1, [⟨str "Поступление", str "USD", 100, str "x"⟩,
              ⟨str "Поступление", str "USD", 50, str "y"⟩])]).2 =
      [(1, [⟨str "Поступление", str "USD", 100, str "x"⟩,
            ⟨str "Поступление", str "USD", 50, str "y"⟩])] := by
  constructor <;>
    simp [process_operation_batch, process_scope, flushScope, applyOp,
      Database.add_operation, Database.ensureChat, Database.initBalances,
      Database.upsertBalance, CURRENCIES, DBState.empty]

/-- Witness for the amended C6 at a concrete batch: instantiating the
prefix-commit theorem at the two-entry batch whose second call fails. -/
theorem flush_prefix_commit_witness :
    ∃ k, k ≤ ([⟨str "Поступление", str "USD", 100, str "x"⟩,
               ⟨str "Поступление", str "USD", 50, str "y"⟩] : List QueuedOp).length ∧
      (flushScope (fun i => decide (i = 1)) 0 1 DBState.empty
          [⟨str "Поступление", str "USD", 100, str "x"⟩,
           ⟨str "Поступление", str "USD", 50, str "y"⟩]).1 =
        applyOps 0 1 DBState.empty
          (([⟨str "Поступление", str "USD", 100, str "x"⟩,
             ⟨str "Поступление", str "USD", 50, str "y"⟩] : List QueuedOp).take k) ∧
      (∀ j, j < k → (fun i => decide (i = 1)) j = false) ∧
      ((flushScope (fun i => decide (i = 1)) 0 1 DBState.empty
          [⟨str "Поступление", str "USD", 100, str "x"⟩,
           ⟨str "Поступление", str "USD", 50, str "y"⟩]).2 = true →
        k = ([⟨str "Поступление", str "USD", 100, str "x"⟩,
              ⟨str "Поступление", str "USD", 50, str "y"⟩] : List QueuedOp).length) ∧
      ((flushScope (fun i => decide (i = 1)) 0 1 DBState.empty
          [⟨str "Поступление", str "USD", 100, str "x"⟩,
           ⟨str "Поступление", str "USD", 50, str "y"⟩]).2 = false →
        k < ([⟨str "Поступление", str "USD", 100, str "x"⟩,
              ⟨str "Поступление", str "USD", 50, str "y"⟩] : List QueuedOp).length ∧
          (fun i => decide (i = 1)) k = true) ∧
      ∀ q : OpQueue, (flushScope (fun i => decide (i = 1)) 0 1 DBState.empty
          [⟨str "Поступление", str "USD", 100, str "x"⟩,
           ⟨str "Поступление", str "USD", 50, str "y"⟩]).2 = false →
        process_scope (fun i => decide (i = 1)) 0 DBState.empty q 1
          [⟨str "Поступление", str "USD", 100, str "x"⟩,
           ⟨str "Поступление", str "USD", 50, str "y"⟩] =
          ((flushScope (fun i => decide (i = 1)) 0 1 DBState.empty
            [⟨str "Поступление", str "USD", 100, str "x"⟩,
             ⟨str "Поступление", str "USD", 50, str "y"⟩]).1, q) :=
  flush_prefix_commit (fun i => decide (i = 1)) 0 1 DBState.empty
    [⟨str "Поступление", str "USD", 100, str "x"⟩,
     ⟨str "Поступление", str "USD", 50, str "y"⟩]

/-! ### C1 — add_operation and the balance invariant -/

/-- C1 (code bug): the live `app/db/database.py` `add_operation` inserts
nothing and increments nothing — pasting `is_duplicate_operation` into
the class truncated the method before the balance update and the
COMMIT, so it publishes no state change and returns `None` — while the
legacy `database.py` `add_operation` (whose statements are exactly the
ones stranded unreachably in the app copy) does what the claim says:
one commit that appends the ledger entry and increments the matching
balance row, re-establishing `balance = Σ entries`. -/
theorem add_operation_app_code_bug :
    AppDatabase.add_operation DBState.empty 0 1 (str "Поступление") (str "USD") 100 (str "d") =
      (DBState.empty, none) ∧
    (Database.add_operation DBState.empty 0 1 (str "Поступление") (str "USD") 100 (str "d")).2
      = 1 ∧
    Database.get_balance
      (Database.add_operation DBState.empty 0 1 (str "Поступление") (str "USD") 100
        (str "d")).1 1 (str "USD") = 100 ∧
    Database.sumOps
      (Database.add_operation DBState.empty 0 1 (str "Поступление") (str "USD") 100
        (str "d")).1 1 (str "USD") = 100 ∧
    Database.get_balance DBState.empty 1 (str "USD") = 0 := by
  refine ⟨rfl, rfl, ?_, ?_, ?_⟩ <;>
    norm_num [Database.add_operation, Database.ensureChat, Database.initBalances,
      Database.upsertBalance, Database.get_balance, Database.sumOps, CURRENCIES,
      DBState.empty, List.find?]

/-! ### C5 — the duplicate guard is never consulted -/

/-- C5 (code bug): the auto-income admission path enqueues
unconditionally — no caller of `is_duplicate_operation` exists anywhere
in the repository — so submitting the identical bank income twice
within the 24-hour window commits two identical ledger entries, even
though `is_duplicate_operation` itself would have reported the second
one as a duplicate. -/
theorem duplicate_guard_never_invoked :
    handle_auto_income DBState.empty (-100) 1 false none
        (some ⟨5000, str "USD", str "поступили 5000 usd"⟩) =
      ([(1, ⟨str "Поступление", str "USD", 5000, str "поступили 5000 usd"⟩)], none) ∧
    AppDatabase.is_duplicate_operation
      (process_operation_batch (fun _ _ => false) 1000 DBState.empty
        [(1, [⟨str "Поступление", str "USD", 5000, str "поступили 5000 usd"⟩])]).1
      4600 1 5000 (str "USD") (str "поступили 5000 usd") = true ∧
    ((process_operation_batch (fun _ _ => false) 4600
        (process_operation_batch (fun _ _ => false) 1000 DBState.empty
          [(1, [⟨str "Поступление", str "USD", 5000, str "поступили 5000 usd"⟩])]).1
        [(1, [⟨str "Поступление", str "USD", 5000, str "поступили 5000 usd"⟩])]).1.ops.filter
      (fun o => o.chatId == (1 : ℤ) && o.amount == (5000 : ℚ) &&
        o.currency == str "USD" && o.description == str "поступили 5000 usd")).length = 2 := by
  refine ⟨?_, ?_, ?_⟩
  · simp [handle_auto_income]
  · simp [process_operation_batch, process_scope, flushScope, applyOp,
      Database.add_operation, Database.ensureChat, Database.initBalances,
      Database.upsertBalance, CURRENCIES, DBState.empty,
      AppDatabase.is_duplicate_operation]
  · simp [process_operation_batch, process_scope, flushScope, applyOp,
      Database.add_operation, Database.ensureChat, Database.initBalances,
      Database.upsertBalance, CURRENCIES, DBState.empty]

/-! ### C8 — scope-required validation -/

/-- C8: an operation that needs a scope, submitted from a private
(ambient) context with no group tag, is rejected with the corrective
hint and nothing is enqueued: the resolver raises the hint, the manual
path replies it verbatim and enqueues nothing (for non-internal-report
operations), and the auto-income path replies its own hint and enqueues
nothing. -/
theorem scope_required_rejected (db : DBState) (chatId report_chat_id : ℤ)
    (m : ManualOp) (hni : isInternalReportOp m = false)
    (hrc : chatId ≠ report_chat_id) (inc : IncomeParsed) :
    resolve_target_chat_id db chatId true none = Except.error scopeHintMsg ∧
    handle_manual db true true none chatId (some m) = ([], some scopeHintMsg) ∧
    handle_auto_income db report_chat_id chatId true none (some inc) =
      ([], some privateIncomeHintMsg) := by
  refine ⟨?_, ?_, ?_⟩
  · simp [resolve_target_chat_id, pyTruthy]
  · simp [handle_manual, resolve_target_chat_id, pyTruthy, hni]
  · simp [handle_auto_income, pyTruthy, hrc]

/-- Witness for C8: a concrete cash-deposit intent and a concrete
income in a private chat without a scope tag. -/
theorem scope_required_rejected_witness :
    isInternalReportOp ⟨str "Взнос наличными", 5000, str "USD", none, none, str ""⟩ = false ∧
    (5 : ℤ) ≠ -100 ∧
    handle_manual DBState.empty true true none 5
        (some ⟨str "Взнос наличными", 5000, str "USD", none, none, str ""⟩) =
      ([], some scopeHintMsg) ∧
    handle_auto_income DBState.empty (-100) 5 true none
        (some ⟨5000, str "USD", str "поступили 5000 usd"⟩) =
      ([], some privateIncomeHintMsg) := by
  refine ⟨by decide, by decide, ?_, ?_⟩
  · exact (scope_required_rejected DBState.empty 5 (-100)
      ⟨str "Взнос наличными", 5000, str "USD", none, none, str ""⟩ (by decide)
      (by decide) ⟨5000, str "USD", str "поступили 5000 usd"⟩).2.1
  · exact (scope_required_rejected DBState.empty 5 (-100)
      ⟨str "Взнос наличными", 5000, str "USD", none, none, str ""⟩ (by decide)
      (by decide) ⟨5000, str "USD", str "поступили 5000 usd"⟩).2.2

/-! ### C9 — the read-only audit -/

/-- If no operation row carries the key `(chat, cur)`, the recomputed
balance for that key is 0. -/
theorem sumOps_eq_zero_of_not_mem (db : DBState) (chat : ℤ) (cur : Str)
    (h : (chat, cur) ∉ db.ops.map (fun o => (o.chatId, o.currency))) :
    Database.sumOps db chat cur = 0 := by
  unfold Database.sumOps
  have hf : db.ops.filter (fun o => o.chatId == chat && o.currency == cur) = [] := by
    rw [List.filter_eq_nil_iff]
    intro o ho hpred
    simp only [Bool.and_eq_true, beq_iff_eq] at hpred
    exact h (List.mem_map.mpr ⟨o, ho, by rw [hpred.1, hpred.2]⟩)
  rw [hf]
  simp

/-- If no balance row carries the key `(chat, cur)`, the stored balance
the audit reads for that key is 0. -/
theorem storedBalance_eq_zero_of_not_mem (db : DBState) (chat : ℤ) (cur : Str)
    (h : (chat, cur) ∉ db.balances.map (fun b => (b.chatId, b.currency))) :
    AppDatabase.storedBalance db chat cur = 0 := by
  unfold AppDatabase.storedBalance
  cases hf : db.balances.reverse.find? (fun b => b.chatId == chat && b.currency == cur) with
  | none => rfl
  | some b =>
    have hb := List.mem_of_find?_eq_some hf
    have hpred := List.find?_some hf
    simp only [Bool.and_eq_true, beq_iff_eq] at hpred
    rw [List.mem_reverse] at hb
    exact absurd (List.mem_map.mpr ⟨b, hb, by rw [hpred.1, hpred.2]⟩) h

/-- C9: the audit reports a `positiveExpense` issue for every ledger
entry of an outflow kind with a positive amount, and a `balanceDrift`
issue for every (scope, currency) whose stored materialized balance
deviates from the recomputed sum of entries by more than the fixed
epsilon 0.009; it is a pure function of the state (the source runs only
SELECTs), returning its findings as a list. -/
theorem audit_reports_sign_and_drift (db : DBState) :
    (∀ o ∈ db.ops, o.opType ∈ AppDatabase.expense_types → 0 < o.amount →
      AppDatabase.AuditIssue.positiveExpense o.id o.opType o.amount o.currency o.chatId ∈
        AppDatabase.verify_financial_integrity db) ∧
    (∀ (chat : ℤ) (cur : Str),
      (9 : ℚ)/1000 < |Database.sumOps db chat cur - AppDatabase.storedBalance db chat cur| →
      AppDatabase.AuditIssue.balanceDrift chat cur (Database.sumOps db chat cur)
          (AppDatabase.storedBalance db chat cur) ∈
        AppDatabase.verify_financial_integrity db) := by
  constructor
  · intro o ho hT hA
    unfold AppDatabase.verify_financial_integrity
    simp only [List.mem_append, List.mem_map, List.mem_filter]
    exact Or.inl (Or.inl ⟨o, ⟨ho, by simp [List.contains, List.elem_eq_mem, hT, hA]⟩, rfl⟩)
  · intro chat cur hd
    unfold AppDatabase.verify_financial_integrity
    simp only [List.mem_append, List.mem_map, List.mem_filter]
    have hkey : (chat, cur) ∈
        ((db.ops.map (fun o => (o.chatId, o.currency))) ++
          (db.balances.map (fun b => (b.chatId, b.currency)))).dedup := by
      rw [List.mem_dedup, List.mem_append]
      by_contra hcon
      push_neg at hcon
      rw [sumOps_eq_zero_of_not_mem db chat cur hcon.1,
        storedBalance_eq_zero_of_not_mem db chat cur hcon.2] at hd
      norm_num at hd
    exact Or.inr (⟨(chat, cur), ⟨hkey, by simpa using hd⟩, rfl⟩)

/-- Witness for C9: one positive `Оплата ПП` entry and one drifted
stored balance are both reported on a concrete state. -/
theorem audit_reports_sign_and_drift_witness :
    AppDatabase.AuditIssue.positiveExpense 1 (str "Оплата ПП") 25 (str "USD") 1 ∈
      AppDatabase.verify_financial_integrity
        ⟨[(1, str "G")], [⟨1, 1, str "Оплата ПП", str "USD", 25, str "d", 0⟩],
         [⟨1, str "USD", 0⟩], 2⟩ ∧
    AppDatabase.AuditIssue.balanceDrift 1 (str "USD") 25 0 ∈
      AppDatabase.verify_financial_integrity
        ⟨[(1, str "G")], [⟨1, 1, str "Оплата ПП", str "USD", 25, str "d", 0⟩],
         [⟨1, str "USD", 0⟩], 2⟩ := by
  have hsum : Database.sumOps
      ⟨[(1, str "G")], [⟨1, 1, str "Оплата ПП", str "USD", 25, str "d", 0⟩],
       [⟨1, str "USD", 0⟩], 2⟩ 1 (str "USD") = 25 := by
    simp [Database.sumOps]
  have hstored : AppDatabase.storedBalance
      ⟨[(1, str "G")], [⟨1, 1, str "Оплата ПП", str "USD", 25, str "d", 0⟩],
       [⟨1, str "USD", 0⟩], 2⟩ 1 (str "USD") = 0 := by
    simp [AppDatabase.storedBalance, List.find?]
  constructor
  · exact (audit_reports_sign_and_drift _).1
      ⟨1, 1, str "Оплата ПП", str "USD", 25, str "d", 0⟩ (by simp) (by decide)
      (by norm_num)
  · have h := (audit_reports_sign_and_drift
      ⟨[(1, str "G")], [⟨1, 1, str "Оплата ПП", str "USD", 25, str "d", 0⟩],
       [⟨1, str "USD", 0⟩], 2⟩).2 1 (str "USD")
    rw [hsum, hstored] at h
    exact h (by rw [show (25 : ℚ) - 0 = 25 by norm_num,
      abs_of_pos (by norm_num : (0:ℚ) < 25)]; norm_num)

/-! ### C10 — idempotence of `normalize_currency` -/

/-- Unfolded form of `lowerCp`. -/
theorem lowerCp_eq (c : Nat) : lowerCp c =
    if 65 ≤ c ∧ c ≤ 90 then c + 32
    else if 1040 ≤ c ∧ c ≤ 1071 then c + 32
    else if c = 1025 then 1105
    else c := rfl

/-- Unfolded form of `upperCp`. -/
theorem upperCp_eq (c : Nat) : upperCp c =
    if 97 ≤ c ∧ c ≤ 122 then c - 32
    else if 1072 ≤ c ∧ c ≤ 1103 then c - 32
    else if c = 1105 then 1025
    else c := rfl

/-- Lower-casing an upper-cased lower-case character gives it back. -/
theorem lower_upper_lower (c : Nat) : lowerCp (upperCp (lowerCp c)) = lowerCp c := by
  rw [lowerCp_eq c]
  split_ifs with h1 h2 h3
  · rw [upperCp_eq (c + 32), if_pos ⟨by omega, by omega⟩,
      show c + 32 - 32 = c from by omega, lowerCp_eq c, if_pos h1]
  · rw [upperCp_eq (c + 32),
      if_neg (by omega), if_pos ⟨by omega, by omega⟩,
      show c + 32 - 32 = c from by omega, lowerCp_eq c, if_neg h1, if_pos h2]
  · decide
  · rw [upperCp_eq c]
    split_ifs with g1 g2 g3
    · rw [lowerCp_eq (c - 32), if_pos ⟨by omega, by omega⟩]
      omega
    · rw [lowerCp_eq (c - 32), if_neg (by omega), if_pos ⟨by omega, by omega⟩]
      omega
    · subst g3
      decide
    · rw [lowerCp_eq c, if_neg h1, if_neg h2, if_neg h3]

/-- Upper-casing never creates or destroys whitespace. -/
theorem isSpaceCp_upperCp (c : Nat) : isSpaceCp (upperCp c) = isSpaceCp c := by
  rw [Bool.eq_iff_iff]
  simp only [isSpaceCp, Bool.or_eq_true, decide_eq_true_eq]
  unfold upperCp
  split_ifs <;> omega

/-- Upper-casing never creates or destroys the separator characters
`.` (46) and `,` (44). -/
theorem sep_upperCp (c : Nat) : (upperCp c = 46 ∨ upperCp c = 44) ↔ (c = 46 ∨ c = 44) := by
  unfold upperCp
  split_ifs <;> omega

/-- `dropWhile` is idempotent. -/
theorem dropWhile_self_idem (p : Nat → Bool) :
    ∀ l : Str, (l.dropWhile p).dropWhile p = l.dropWhile p := by
  intro l
  induction l with
  | nil => rfl
  | cons a t ih =>
    by_cases h : p a
    · simp [List.dropWhile_cons, h, ih]
    · simp [List.dropWhile_cons, h]

/-- The head of a `dropWhile` result fails the predicate. -/
theorem dropWhile_head_false (p : Nat → Bool) :
    ∀ (l : Str) (b : Nat) (t : Str), l.dropWhile p = b :: t → p b = false := by
  intro l
  induction l with
  | nil => intro b t h; cases h
  | cons a s ih =>
    intro b t h
    by_cases ha : p a
    · rw [List.dropWhile_cons, if_pos ha] at h
      exact ih b t h
    · rw [List.dropWhile_cons, if_neg ha] at h
      cases h
      simpa using ha

/-- `dropWhile` past a final element that fails the predicate. -/
theorem dropWhile_append_last (p : Nat → Bool) (a : Nat) (ha : p a = false) :
    ∀ l : Str, (l ++ [a]).dropWhile p = l.dropWhile p ++ [a] := by
  intro l
  induction l with
  | nil => simp [List.dropWhile_cons, ha]
  | cons c t ih =>
    by_cases hc : p c
    · simp [List.dropWhile_cons, hc, ih]
    · simp [List.dropWhile_cons, hc]

/-- Members of a `dropWhile` result are members of the input. -/
theorem mem_of_mem_dropWhile (p : Nat → Bool) :
    ∀ (l : Str) (x : Nat), x ∈ l.dropWhile p → x ∈ l := by
  intro l
  induction l with
  | nil => intro x h; cases h
  | cons a t ih =>
    intro x h
    by_cases ha : p a
    · rw [List.dropWhile_cons, if_pos ha] at h
      exact List.mem_cons_of_mem a (ih x h)
    · rw [List.dropWhile_cons, if_neg ha] at h
      exact h

/-- Members of a stripped string are members of the string. -/
theorem mem_of_mem_strStrip (x : Nat) (l : Str) (h : x ∈ strStrip l) : x ∈ l := by
  unfold strStrip at h
  rw [List.mem_reverse] at h
  have h1 := mem_of_mem_dropWhile isSpaceCp _ x h
  rw [List.mem_reverse] at h1
  exact mem_of_mem_dropWhile isSpaceCp l x h1

/-- Stripping is idempotent. -/
theorem strStrip_idem (l : Str) : strStrip (strStrip l) = strStrip l := by
  cases hA : l.dropWhile isSpaceCp with
  | nil =>
    have h1 : strStrip l = [] := by unfold strStrip; rw [hA]; rfl
    rw [h1]
    rfl
  | cons a t =>
    have ha : isSpaceCp a = false := dropWhile_head_false isSpaceCp l a t hA
    have h1 : strStrip l = a :: (List.dropWhile isSpaceCp t.reverse).reverse := by
      unfold strStrip
      rw [hA, show (a :: t).reverse = t.reverse ++ [a] from by simp,
        dropWhile_append_last isSpaceCp a ha, List.reverse_append]
      simp
    rw [h1]
    unfold strStrip
    rw [List.dropWhile_cons, if_neg (by simp [ha]),
      show (a :: (List.dropWhile isSpaceCp t.reverse).reverse).reverse
        = (List.dropWhile isSpaceCp t.reverse).reverse.reverse ++ [a] from by simp,
      List.reverse_reverse, dropWhile_append_last isSpaceCp a ha,
      dropWhile_self_idem, List.reverse_append]
    simp

/-- A map that is the identity on every member is the identity. -/
theorem map_id_on (f : Nat → Nat) :
    ∀ l : Str, (∀ x ∈ l, f x = x) → l.map f = l := by
  intro l
  induction l with
  | nil => intro _; rfl
  | cons a t ih =>
    intro h
    rw [List.map_cons, h a (List.mem_cons_self a t), ih (fun x hx => h x (List.mem_cons_of_mem a hx))]

/-- `dropWhile` commutes with a `map` that preserves the predicate. -/
theorem dropWhile_map_comm (f : Nat → Nat) (p : Nat → Bool) (hp : ∀ x, p (f x) = p x) :
    ∀ l : Str, (l.map f).dropWhile p = (l.dropWhile p).map f := by
  intro l
  induction l with
  | nil => rfl
  | cons a t ih =>
    by_cases ha : p a
    · simp [List.dropWhile_cons, hp a, ha, ih]
    · simp [List.dropWhile_cons, hp a, ha]

/-- Stripping commutes with a `map` that preserves whitespace. -/
theorem strStrip_map_comm (f : Nat → Nat) (hf : ∀ x, isSpaceCp (f x) = isSpaceCp x)
    (l : Str) : strStrip (l.map f) = (strStrip l).map f := by
  unfold strStrip
  rw [dropWhile_map_comm f isSpaceCp hf l, ← List.map_reverse,
    dropWhile_map_comm f isSpaceCp hf, ← List.map_reverse]

/-- Every member of a cleaned currency token is a lower-cased character
that is not a separator. -/
theorem cleanCurr_mem (m : Str) (x : Nat) (hx : x ∈ cleanCurr m) :
    (∃ e, x = lowerCp e) ∧ ¬(x = 46 ∨ x = 44) := by
  have hz := mem_of_mem_strStrip x _ hx
  have h1 := List.mem_filter.mp hz
  obtain ⟨e, _, he⟩ := List.mem_map.mp h1.1
  exact ⟨⟨e, he.symm⟩, by simpa using h1.2⟩

/-- Cleaning the upper-cased pass-through of a cleaned token gives the
cleaned token back. -/
theorem cleanCurr_upper_fixed (m : Str) :
    cleanCurr (strUpper (cleanCurr m)) = cleanCurr m := by
  have hstrip : strStrip (cleanCurr m) = cleanCurr m := strStrip_idem _
  have hlow : strLower (strUpper (cleanCurr m)) = cleanCurr m := by
    show ((cleanCurr m).map upperCp).map lowerCp = cleanCurr m
    rw [List.map_map]
    exact map_id_on _ _ (fun x hx => by
      obtain ⟨⟨e, he⟩, _⟩ := cleanCurr_mem m x hx
      rw [he]
      exact lower_upper_lower e)
  have hfil : (cleanCurr m).filter (fun ch => ¬(ch = 46 ∨ ch = 44)) = cleanCurr m :=
    List.filter_eq_self.mpr (fun x hx => by
      simpa using (cleanCurr_mem m x hx).2)
  show strStrip ((strLower (strStrip (strUpper (cleanCurr m)))).filter _) = cleanCurr m
  rw [show strStrip (strUpper (cleanCurr m)) = strUpper (strStrip (cleanCurr m)) from
    strStrip_map_comm upperCp isSpaceCp_upperCp (cleanCurr m), hstrip, hlow, hfil, hstrip]

/-- A lookup result inherits any property satisfied by all table values. -/
theorem lookup_val_fixed_gen : ∀ (l : List (Str × Str)) (k v : Str),
    (∀ p ∈ l, normalize_currency p.2 = p.2) → lookupStr l k = some v →
    normalize_currency v = v := by
  intro l
  induction l with
  | nil => intro k v _ h; cases h
  | cons p rest ih =>
    intro k v hall h
    obtain ⟨a, b⟩ := p
    simp only [lookupStr] at h
    split at h
    · injection h with h
      subst h
      exact hall (a, b) (List.mem_cons_self _ _)
    · exact ih k v (fun p hp => hall p (List.mem_cons_of_mem _ hp)) h

/-- Every value the alias table can return is a fixed point of
`normalize_currency`. -/
theorem lookup_val_fixed : ∀ k v, lookupStr curr_map k = some v →
    normalize_currency v = v := fun k v h =>
  lookup_val_fixed_gen curr_map k v (by decide) h

/-- C10: `normalize_currency` is idempotent — every canonical code the
alias table produces, the USDT aliases' result, and every upper-cased
pass-through of an unknown token are fixed points, so applying the
function twice equals applying it once, for every input string. -/
theorem normalize_currency_idempotent (s : Str) :
    normalize_currency (normalize_currency s) = normalize_currency s := by
  by_cases hs : s = []
  · subst hs; decide
  · have hds : normalize_currency s =
        (if cleanCurr s = str "usdt" ∨ cleanCurr s = str "тез" ∨ cleanCurr s = str "тезер"
         then str "USDT"
         else
           match lookupStr curr_map (cleanCurr s) with
           | some v => v
           | none => strUpper (cleanCurr s)) := by
      simp only [normalize_currency, if_neg hs]
    rw [hds]
    by_cases h1 : cleanCurr s = str "usdt" ∨ cleanCurr s = str "тез" ∨ cleanCurr s = str "тезер"
    · rw [if_pos h1]
      decide
    · rw [if_neg h1]
      cases hlk : lookupStr curr_map (cleanCurr s) with
      | some v => exact lookup_val_fixed (cleanCurr s) v hlk
      | none =>
        show normalize_currency (strUpper (cleanCurr s)) = strUpper (cleanCurr s)
        by_cases hup : strUpper (cleanCurr s) = []
        · rw [hup]
          decide
        · simp only [normalize_currency, if_neg hup, cleanCurr_upper_fixed s]
          rw [if_neg h1, hlk]

/-! ### C4 — thousands-grouping in `parse_human_number` -/

/-- Splitting always yields at least one part, and joining the parts
with the separator restores the string. -/
theorem splitSep_shape (sep : Nat) : ∀ t : Str,
    ∃ (h : Str) (gs : List Str), splitSep sep t = h :: gs ∧
      t = h ++ (gs.map (fun g => sep :: g)).flatten := by
  intro t
  induction t with
  | nil => exact ⟨[], [], rfl, rfl⟩
  | cons c rest ih =>
    obtain ⟨h, gs, hsplit, hjoin⟩ := ih
    by_cases hc : c = sep
    · refine ⟨[], h :: gs, ?_, ?_⟩
      · simp [splitSep, hc, hsplit]
      · subst hc
        simp [hjoin]
    · refine ⟨c :: h, gs, ?_, ?_⟩
      · simp [splitSep, hc, hsplit]
      · simp [hjoin]

/-- No part produced by splitting contains the separator. -/
theorem splitSep_sep_not_mem (sep : Nat) : ∀ (t : Str) (p : Str),
    p ∈ splitSep sep t → sep ∉ p := by
  intro t
  induction t with
  | nil =>
    intro p hp
    simp only [splitSep, List.mem_singleton] at hp
    subst hp
    simp
  | cons c rest ih =>
    intro p hp
    by_cases hc : c = sep
    · rw [show splitSep sep (c :: rest) = [] :: splitSep sep rest from by
        simp [splitSep, hc]] at hp
      rcases List.mem_cons.mp hp with h | h
      · subst h; simp
      · exact ih p h
    · obtain ⟨h, gs, hsplit, _⟩ := splitSep_shape sep rest
      rw [show splitSep sep (c :: rest) = (c :: h) :: gs from by
        simp [splitSep, hc, hsplit]] at hp
      rcases List.mem_cons.mp hp with hh | hh
      · subst hh
        intro hmem
        rcases List.mem_cons.mp hmem with h1 | h1
        · exact hc h1.symm
        · exact ih h (by rw [hsplit]; exact List.mem_cons_self _ _) h1
      · exact ih p (by rw [hsplit]; exact List.mem_cons_of_mem _ hh)

/-- A separator-free string splits into itself. -/
theorem splitSep_of_not_mem (sep : Nat) : ∀ g : Str, sep ∉ g →
    splitSep sep g = [g] := by
  intro g
  induction g with
  | nil => intro _; rfl
  | cons c t ih =>
    intro hmem
    have hc : c ≠ sep := fun h => hmem (by rw [h]; exact List.mem_cons_self _ _)
    have ht : sep ∉ t := fun h => hmem (List.mem_cons_of_mem _ h)
    simp [splitSep, hc, ih ht]

/-- Splitting past a separator-free head. -/
theorem splitSep_append (sep : Nat) : ∀ (h : Str), sep ∉ h → ∀ rest : Str,
    splitSep sep (h ++ sep :: rest) = h :: splitSep sep rest := by
  intro h
  induction h with
  | nil =>
    intro _ rest
    simp [splitSep]
  | cons c h' ih =>
    intro hmem rest
    have hc : c ≠ sep := fun hh => hmem (by rw [hh]; exact List.mem_cons_self _ _)
    have hh' : sep ∉ h' := fun hh => hmem (List.mem_cons_of_mem _ hh)
    simp [splitSep, hc, ih hh' rest]

/-- Splitting a string assembled from a separator-free head and
separator-free groups recovers exactly those parts. -/
theorem splitSep_assembled (sep : Nat) : ∀ (gs : List Str) (h : Str), sep ∉ h →
    (∀ g ∈ gs, sep ∉ g) →
    splitSep sep (h ++ (gs.map (fun g => sep :: g)).flatten) = h :: gs := by
  intro gs
  induction gs with
  | nil =>
    intro h hh _
    simpa using splitSep_of_not_mem sep h hh
  | cons g gs' ih =>
    intro h hh hgs
    have hassoc : h ++ ((g :: gs').map (fun g => sep :: g)).flatten =
        h ++ sep :: (g ++ (gs'.map (fun g => sep :: g)).flatten) := by
      simp
    rw [hassoc, splitSep_append sep h hh,
      ih g (hgs g (List.mem_cons_self _ _)) (fun p hp => hgs p (List.mem_cons_of_mem _ hp))]

/-- The grouping regex of `parse_human_number` accepts exactly the
strings the claim describes: a 1–3 digit head followed by at least
`minGroups` complete 3-digit groups (for a non-digit separator). -/
theorem matchGroupsRe_iff (sep minGroups : Nat) (t : Str) (hs : isDigitCp sep = false) :
    matchGroupsRe sep minGroups t = true ↔ SpecGrouped sep minGroups t := by
  constructor
  · intro hm
    obtain ⟨h, gs, hsplit, hjoin⟩ := splitSep_shape sep t
    rw [matchGroupsRe, hsplit] at hm
    simp only [Bool.and_eq_true, bne_iff_ne, ne_eq, decide_eq_true_eq, List.all_eq_true,
      beq_iff_eq] at hm
    exact ⟨h, gs, hjoin, hm.1.1.1.1, hm.1.1.1.2, fun c hc => hm.1.1.2 c hc, hm.1.2,
      fun g hg => ⟨(hm.2 g hg).1, fun c hc => (hm.2 g hg).2 c hc⟩⟩
  · rintro ⟨h, gs, hjoin, hne, hlen, hdig, hcount, hgroups⟩
    have hh : sep ∉ h := fun hmem => by
      have := hdig sep hmem
      rw [hs] at this
      cases this
    have hgs : ∀ g ∈ gs, sep ∉ g := fun g hg hmem => by
      have := (hgroups g hg).2 sep hmem
      rw [hs] at this
      cases this
    rw [matchGroupsRe, hjoin, splitSep_assembled sep gs h hh hgs]
    simp only [Bool.and_eq_true, bne_iff_ne, ne_eq, decide_eq_true_eq, List.all_eq_true,
      beq_iff_eq]
    exact ⟨⟨⟨⟨hne, hlen⟩, fun c hc => hdig c hc⟩, hcount⟩,
      fun g hg => ⟨(hgroups g hg).1, fun c hc => (hgroups g hg).2 c hc⟩⟩

/-- `dropWhile` is the identity when no member satisfies the predicate. -/
theorem dropWhile_eq_self_of_none (p : Nat → Bool) :
    ∀ l : Str, (∀ x ∈ l, p x = false) → l.dropWhile p = l := by
  intro l
  induction l with
  | nil => intro _; rfl
  | cons a t _ =>
    intro h
    rw [List.dropWhile_cons, if_neg (by simp [h a (List.mem_cons_self a t)])]

/-- Stripping is the identity on whitespace-free strings. -/
theorem strStrip_eq_self_of_none (l : Str) (h : ∀ x ∈ l, isSpaceCp x = false) :
    strStrip l = l := by
  unfold strStrip
  rw [dropWhile_eq_self_of_none isSpaceCp l h,
    dropWhile_eq_self_of_none isSpaceCp l.reverse (fun x hx => h x (List.mem_reverse.mp hx)),
    List.reverse_reverse]

/-- Digits and the two separators are not whitespace. -/
theorem not_space_of_digit_or_sep (c : Nat)
    (h : isDigitCp c = true ∨ c = 46 ∨ c = 44) : isSpaceCp c = false := by
  have hd : (48 ≤ c ∧ c ≤ 57) ∨ c = 46 ∨ c = 44 := by
    rcases h with h | h
    · exact Or.inl (by simpa [isDigitCp] using h)
    · exact Or.inr h
  rw [Bool.eq_false_iff]
  intro hsp
  simp only [isSpaceCp, Bool.or_eq_true, decide_eq_true_eq] at hsp
  omega

/-- The whitespace-removal stage of `parse_human_number` is the
identity on whitespace-free input. -/
theorem parse_stage_id (t : Str) (h : ∀ c ∈ t, isDigitCp c = true ∨ c = 46 ∨ c = 44) :
    ((strStrip t).map (fun c => if c = 0xA0 then 32 else c)).filter
      (fun c => ¬ isSpaceCp c) = t := by
  have hns : ∀ x ∈ t, isSpaceCp x = false := fun x hx => not_space_of_digit_or_sep x (h x hx)
  rw [strStrip_eq_self_of_none t hns]
  rw [map_id_on _ t (fun x hx => by
    have := h x hx
    have hd : (48 ≤ x ∧ x ≤ 57) ∨ x = 46 ∨ x = 44 := by
      rcases this with h' | h'
      · exact Or.inl (by simpa [isDigitCp] using h')
      · exact Or.inr h'
    rw [if_neg (by omega)])]
  exact List.filter_eq_self.mpr (fun x hx => by simp [hns x hx])

/-- `float()` of a nonempty digit string is its integer value. -/
theorem pyFloat_digits (s : Str) (hd : ∀ c ∈ s, isDigitCp c = true) (hne : s ≠ []) :
    pyFloat s = some ((digitsVal s : ℚ)) := by
  have h46 : (46 : Nat) ∉ s := fun hm => absurd (hd 46 hm) (by decide)
  rw [pyFloat, splitSep_of_not_mem 46 s h46]
  show (if s ≠ [] ∧ List.all s isDigitCp = true then some ((digitsVal s : ℚ)) else none) =
    some ((digitsVal s : ℚ))
  rw [if_pos ⟨hne, List.all_eq_true.mpr hd⟩]

/-- `float()` of two digit runs around a single `.`. -/
theorem pyFloat_decimal (a b : Str) (hda : ∀ c ∈ a, isDigitCp c = true)
    (hdb : ∀ c ∈ b, isDigitCp c = true) (hne : a ≠ [] ∨ b ≠ []) :
    pyFloat (a ++ 46 :: b) =
      some ((digitsVal a : ℚ) + (digitsVal b : ℚ) / 10 ^ b.length) := by
  have ha46 : (46 : Nat) ∉ a := fun hm => absurd (hda 46 hm) (by decide)
  have hb46 : (46 : Nat) ∉ b := fun hm => absurd (hdb 46 hm) (by decide)
  rw [pyFloat, splitSep_append 46 a ha46 b, splitSep_of_not_mem 46 b hb46]
  show (if (a ≠ [] ∨ b ≠ []) ∧ List.all a isDigitCp = true ∧ List.all b isDigitCp = true
      then some ((digitsVal a : ℚ) + (digitsVal b : ℚ) / 10 ^ b.length) else none) =
    some ((digitsVal a : ℚ) + (digitsVal b : ℚ) / 10 ^ b.length)
  rw [if_pos ⟨hne, List.all_eq_true.mpr hda, List.all_eq_true.mpr hdb⟩]

/-- C4 (amended): for a whitespace-free numeric string over digits and a
single separator kind, `parse_human_number` treats the separator as
thousands-grouping exactly when the digits after it form complete
3-digit groups — repeated at least **twice** for `.` and at least once
for `,` — concatenating the digits into an integer; otherwise the
(single) separator is a decimal mark. -/
theorem parse_human_number_amended (t : Str) (sep : Nat)
    (hsep : sep = 46 ∨ sep = 44)
    (hchars : ∀ c ∈ t, isDigitCp c = true ∨ c = sep)
    (hmem : sep ∈ t) :
    (SpecGrouped sep (if sep = 46 then 2 else 1) t →
      parse_human_number t = some ((digitsVal (t.filter (fun c => c ≠ sep)) : ℚ))) ∧
    (¬ SpecGrouped sep (if sep = 46 then 2 else 1) t →
      ∀ a b : Str, t = a ++ sep :: b → sep ∉ a → sep ∉ b → (a ≠ [] ∨ b ≠ []) →
        parse_human_number t =
          some ((digitsVal a : ℚ) + (digitsVal b : ℚ) / 10 ^ b.length)) := by
  have hstage : ∀ c ∈ t, isDigitCp c = true ∨ c = 46 ∨ c = 44 := by
    intro c hc
    rcases hchars c hc with h | h
    · exact Or.inl h
    · rcases hsep with rfl | rfl
      · exact Or.inr (Or.inl h)
      · exact Or.inr (Or.inr h)
  rcases hsep with rfl | rfl
  · have h44 : (44 : Nat) ∉ t := by
      intro hm
      rcases hchars 44 hm with h | h
      · exact absurd h (by decide)
      · omega
    constructor
    · intro hSpec
      have hmatch : matchGroupsRe 46 2 t = true :=
        (matchGroupsRe_iff 46 2 t (by decide)).mpr (by simpa using hSpec)
      have hfil : ∀ c ∈ t.filter (fun c => c ≠ 46), isDigitCp c = true := by
        intro c hc
        have h1 := List.mem_filter.mp hc
        rcases hchars c h1.1 with h | h
        · exact h
        · exact absurd h (by simpa using h1.2)
      have hfilne : t.filter (fun c => c ≠ 46) ≠ [] := by
        obtain ⟨h, gs, hjoin, hne, _, hdig, _, _⟩ := by simpa using hSpec
        cases h with
        | nil => exact absurd rfl hne
        | cons x h' =>
          have hxt : x ∈ t := by
            rw [hjoin]
            exact List.mem_append_left _ (List.mem_cons_self _ _)
          have hxd := hdig x (List.mem_cons_self _ _)
          have hx46 : x ≠ 46 := by
            intro hh
            rw [hh] at hxd
            exact absurd hxd (by decide)
          exact List.ne_nil_of_mem (List.mem_filter.mpr ⟨hxt, by simpa using hx46⟩)
      simp only [parse_human_number]
      rw [parse_stage_id t hstage, if_neg (fun hb => h44 hb.2), if_pos hmem, if_pos hmatch]
      exact pyFloat_digits _ hfil hfilne
    · intro hSpec a b hab ha hb hne
      have hmatch : matchGroupsRe 46 2 t = false := by
        rw [Bool.eq_false_iff]
        intro hm
        exact hSpec (by simpa using (matchGroupsRe_iff 46 2 t (by decide)).mp hm)
      have hda : ∀ c ∈ a, isDigitCp c = true := by
        intro c hc
        rcases hchars c (by rw [hab]; exact List.mem_append_left _ hc) with h | h
        · exact h
        · rw [h] at hc
          exact absurd hc ha
      have hdb : ∀ c ∈ b, isDigitCp c = true := by
        intro c hc
        rcases hchars c
            (by rw [hab]; exact List.mem_append_right _ (List.mem_cons_of_mem _ hc)) with h | h
        · exact h
        · rw [h] at hc
          exact absurd hc hb
      simp only [parse_human_number]
      rw [parse_stage_id t hstage, if_neg (fun hbm => h44 hbm.2), if_pos hmem,
        if_neg (by simp [hmatch]), hab]
      exact pyFloat_decimal a b hda hdb hne
  · have h46 : (46 : Nat) ∉ t := by
      intro hm
      rcases hchars 46 hm with h | h
      · exact absurd h (by decide)
      · omega
    constructor
    · intro hSpec
      have hmatch : matchGroupsRe 44 1 t = true :=
        (matchGroupsRe_iff 44 1 t (by decide)).mpr (by simpa using hSpec)
      have hfil : ∀ c ∈ t.filter (fun c => c ≠ 44), isDigitCp c = true := by
        intro c hc
        have h1 := List.mem_filter.mp hc
        rcases hchars c h1.1 with h | h
        · exact h
        · exact absurd h (by simpa using h1.2)
      have hfilne : t.filter (fun c => c ≠ 44) ≠ [] := by
        obtain ⟨h, gs, hjoin, hne, _, hdig, _, _⟩ := by simpa using hSpec
        cases h with
        | nil => exact absurd rfl hne
        | cons x h' =>
          have hxt : x ∈ t := by
            rw [hjoin]
            exact List.mem_append_left _ (List.mem_cons_self _ _)
          have hxd := hdig x (List.mem_cons_self _ _)
          have hx44 : x ≠ 44 := by
            intro hh
            rw [hh] at hxd
            exact absurd hxd (by decide)
          exact List.ne_nil_of_mem (List.mem_filter.mpr ⟨hxt, by simpa using hx44⟩)
      simp only [parse_human_number]
      rw [parse_stage_id t hstage, if_neg (fun hb => h46 hb.1), if_neg h46, if_pos hmem,
        if_pos hmatch]
      exact pyFloat_digits _ hfil hfilne
    · intro hSpec a b hab ha hb hne
      have hmatch : matchGroupsRe 44 1 t = false := by
        rw [Bool.eq_false_iff]
        intro hm
        exact hSpec (by simpa using (matchGroupsRe_iff 44 1 t (by decide)).mp hm)
      have hda : ∀ c ∈ a, isDigitCp c = true := by
        intro c hc
        rcases hchars c (by rw [hab]; exact List.mem_append_left _ hc) with h | h
        · exact h
        · rw [h] at hc
          exact absurd hc ha
      have hdb : ∀ c ∈ b, isDigitCp c = true := by
        intro c hc
        rcases hchars c
            (by rw [hab]; exact List.mem_append_right _ (List.mem_cons_of_mem _ hc)) with h | h
        · exact h
        · rw [h] at hc
          exact absurd hc hb
      have hmap : t.map (fun c => if c = 44 then 46 else c) = a ++ 46 :: b := by
        rw [hab, List.map_append, List.map_cons,
          map_id_on _ a (fun x hx => by
            rw [if_neg (fun hh => ha (by rw [hh] at hx; exact hx))]),
          map_id_on _ b (fun x hx => by
            rw [if_neg (fun hh => hb (by rw [hh] at hx; exact hx))]),
          if_pos rfl]
      simp only [parse_human_number]
      rw [parse_stage_id t hstage, if_neg (fun hbm => h46 hbm.1), if_neg h46, if_pos hmem,
        if_neg (by simp [hmatch]), hmap]
      exact pyFloat_decimal a b hda hdb hne

/-- Counterexample to C4 as stated: the claim says a single `.` whose
trailing digits form one complete 3-digit group is thousands-grouping
(`"1.234"` → 1234), but the live parser requires at least **two**
3-digit groups for `.`, so `parse_human_number "1.234"` is `1.234`
(= 617/500), not 1234. -/
theorem parse_human_number_counterexample :
    parse_human_number (str "1.234") = some (617/500) ∧ ((617 : ℚ)/500) ≠ 1234 := by
  constructor
  · have ht : str "1.234" = [49, 46, 50, 51, 52] := by decide
    rw [ht]
    simp only [parse_human_number]
    rw [parse_stage_id [49, 46, 50, 51, 52] (by decide), if_neg (by decide),
      if_pos (by decide), if_neg (by decide),
      show ([49, 46, 50, 51, 52] : Str) = [49] ++ 46 :: [50, 51, 52] from rfl,
      pyFloat_decimal [49] [50, 51, 52] (by decide) (by decide) (Or.inl (by decide))]
    rw [show digitsVal [49] = 1 from rfl, show digitsVal [50, 51, 52] = 234 from rfl]
    norm_num
  · norm_num

/-- Witness for the amended C4 at `"1,000"`: one 3-digit group after a
comma is thousands-grouping and parses to 1000. -/
theorem parse_human_number_amended_witness :
    (∀ c ∈ str "1,000", isDigitCp c = true ∨ c = 44) ∧ (44 : Nat) ∈ str "1,000" ∧
    parse_human_number (str "1,000") = some 1000 := by
  refine ⟨by decide, by decide, ?_⟩
  have hS : SpecGrouped 44 (if (44 : Nat) = 46 then 2 else 1) (str "1,000") := by
    refine ⟨[49], [[48, 48, 48]], by decide, by decide, by decide, by decide, by decide, ?_⟩
    intro g hg
    rw [List.mem_singleton.mp hg]
    exact ⟨rfl, by decide⟩
  have h := (parse_human_number_amended (str "1,000") 44 (Or.inr rfl) (by decide)
    (by decide)).1 hS
  rw [h, show digitsVal (List.filter (fun c => c ≠ 44) (str "1,000")) = 1000 from by decide]
  norm_num
